import Mathlib

/-!
# Verification of the picoscope_4000A_logger streaming core

Shallow embedding of the parts of `StreamApp.py`, `pico_app/tools.py` and
`pico_app/data_reader.py` that the specification's claims concern, together
with proofs (or refutations) of those claims.

Conventions of the embedding:
* Python floats are idealised as exact rationals (`ℚ`);
* Python `int(...)` applied to a float is truncation toward zero (`pyInt`);
* Python lists are `List`; slicing `l[-k:]` is `pyLastSlice`;
* enumerations (`RANGE`, `TIME_UNITS`, `CHANNEL` from `driver/enums.py`)
  are inductive types carrying their integer `value`;
* fallible operations (`KeyError`, parse exceptions) return `Except`/`Option`.
-/

set_option autoImplicit false

namespace Pico

universe u

/-- `driver/enums.py`: `TIME_UNITS(IntEnum)` with FS=0 .. S=5. -/
inductive TIME_UNITS where
  | FS | PS | NS | US | MS | S
deriving DecidableEq, Repr

/-- `driver/enums.py`: `RANGE(IntEnum)`, RANGE_10MV = 0 … RANGE_50V = 11. -/
inductive RANGE where
  | RANGE_10MV | RANGE_20MV | RANGE_50MV | RANGE_100MV | RANGE_200MV | RANGE_500MV
  | RANGE_1V | RANGE_2V | RANGE_5V | RANGE_10V | RANGE_20V | RANGE_50V
deriving DecidableEq, Repr

/-- The `.value` of each `RANGE` member. -/
def RANGE.val : RANGE → Int
  | .RANGE_10MV => 0
  | .RANGE_20MV => 1
  | .RANGE_50MV => 2
  | .RANGE_100MV => 3
  | .RANGE_200MV => 4
  | .RANGE_500MV => 5
  | .RANGE_1V => 6
  | .RANGE_2V => 7
  | .RANGE_5V => 8
  | .RANGE_10V => 9
  | .RANGE_20V => 10
  | .RANGE_50V => 11

/-- All members of the `RANGE` enumeration, in declaration order. -/
def RANGE.all : List RANGE :=
  [.RANGE_10MV, .RANGE_20MV, .RANGE_50MV, .RANGE_100MV, .RANGE_200MV, .RANGE_500MV,
   .RANGE_1V, .RANGE_2V, .RANGE_5V, .RANGE_10V, .RANGE_20V, .RANGE_50V]

/-- `RANGE(v) if v in RANGE._value2member_map_ else None` from
`Channel.next_range` / `Channel.prv_range` in `pico_app/tools.py`. -/
def RANGE.ofValue? (v : Int) : Option RANGE :=
  RANGE.all.find? (fun r => r.val == v)

/-- `max(item.value for item in RANGE)` (= 11). -/
def RANGE.maxVal : Int := (RANGE.all.map RANGE.val).foldl max 0

/-- `min(item.value for item in RANGE)` (= 0). -/
def RANGE.minVal : Int := (RANGE.all.map RANGE.val).foldl min 0

/-- `driver/enums.py`: `CHANNEL(IntEnum)`, A = 0 … H = 7. -/
inductive CHANNEL where
  | A | B | C | D | E | F | G | H
deriving DecidableEq, Repr

/-- `AVAILABLE_CHANNELS = ['A', …, 'H']` from `StreamApp.py`. -/
def AVAILABLE_CHANNELS : List CHANNEL :=
  [.A, .B, .C, .D, .E, .F, .G, .H]

/-- `pico_app/tools.py`: the `Channel` dataclass.  The buffer is carried here
as a per-instance field, which is what the dataclass syntactically suggests;
the actual CPython attribute-resolution semantics of the un-annotated
`buffer = []` (a class attribute shared between instances) is modelled
separately by `BufferHeap` below. -/
structure Channel where
  name : String := ""
  active : Bool := false
  range : RANGE := RANGE.RANGE_10V
  offset : ℚ := 0
  resolution : Nat := 12
  buffer : List ℚ := []
deriving DecidableEq, Repr

/-- `self.max_buffer_size = 2000` from `MainWindow.__init__`. -/
def max_buffer_size : Nat := 2000

/-- `self.size_one_buffer = 200` from `MainWindow.__init__`. -/
def size_one_buffer : Nat := 200

/-- Python slicing `l[-k:]` (the last `k` elements for `k > 0`;
`l[-0:]` is the whole list). -/
def pyLastSlice {α : Type u} (k : Nat) (l : List α) : List α :=
  if k = 0 then l else l.drop (l.length - k)

/-- The rolling-buffer update of `MainWindow.update_data` for one channel
(lines 304–308 of `StreamApp.py`): `channel.buffer.extend(data)` followed by
`if len(channel.buffer) > self.max_buffer_size:
  channel.buffer = channel.buffer[-self.max_buffer_size:]`. -/
def push_chunk {α : Type u} (cap : Nat) (buffer chunk : List α) : List α :=
  let b := buffer ++ chunk
  if cap < b.length then pyLastSlice cap b else b

/-- A whole sequence of chunk deliveries applied to an initially empty
rolling buffer, with the app's fixed `max_buffer_size`. -/
def rolling_run (chunks : List (List ℚ)) : List ℚ :=
  chunks.foldl (push_chunk max_buffer_size) []

/-- Python `int(...)` on a rational: truncation toward zero. -/
def pyInt (q : ℚ) : Int := if q < 0 then -⌊-q⌋ else ⌊q⌋

/-- `calculate_sample_interval` from `StreamApp.py` lines 32–53, with floats
idealised as exact rationals. -/
def calculate_sample_interval (sample_frequency : ℚ) : Int × TIME_UNITS :=
  let sample_interval := 1 / sample_frequency
  if 1 ≤ sample_interval then
    (pyInt sample_interval, TIME_UNITS.S)
  else if 1/1000 ≤ sample_interval then
    (pyInt (sample_interval * 1000), TIME_UNITS.MS)
  else if 1/1000000 ≤ sample_interval then
    (pyInt (sample_interval * 1000000), TIME_UNITS.US)
  else
    (pyInt (sample_interval * 1000000000), TIME_UNITS.NS)

/-- Modelled from the spec: the length of one time unit in seconds
(the helper `unit` imported from `driver/functions.py` is not present under
`src/`; the spec describes units as seconds/milliseconds/microseconds/
nanoseconds). -/
def unit_seconds : TIME_UNITS → ℚ
  | .FS => 1/1000000000000000
  | .PS => 1/1000000000000
  | .NS => 1/1000000000
  | .US => 1/1000000
  | .MS => 1/1000
  | .S => 1

/-- `Channel.next_range` from `pico_app/tools.py`: step the range up by one
enum value if that value exists, and report whether the new range is the
topmost one. -/
def Channel.next_range (c : Channel) : Channel × Bool :=
  let new_value := c.range.val + 1
  match RANGE.ofValue? new_value with
  | none => (c, false)
  | some new_range =>
    let c' := { c with range := new_range }
    (c', c'.range.val == RANGE.maxVal)

/-- `Channel.prv_range` from `pico_app/tools.py`: step the range down by one
enum value if that value exists, and report whether the new range is the
bottommost one. -/
def Channel.prv_range (c : Channel) : Channel × Bool :=
  let new_value := c.range.val - 1
  match RANGE.ofValue? new_value with
  | none => (c, false)
  | some new_range =>
    let c' := { c with range := new_range }
    (c', c'.range.val == RANGE.minVal)

/-- Iterate a state-and-flag step function, keeping only the state. -/
def stepN (f : Channel → Channel × Bool) : Nat → Channel → Channel
  | 0, c => c
  | n + 1, c => stepN f n (f c).1

/-- The last `k` elements of a list (`l.drop (l.length - k)`). -/
def lastN {α : Type u} (k : Nat) (l : List α) : List α :=
  l.drop (l.length - k)

theorem push_chunk_eq_lastN {α : Type u} (cap : Nat) (hcap : cap ≠ 0)
    (buffer chunk : List α) :
    push_chunk cap buffer chunk = lastN cap (buffer ++ chunk) := by
  simp only [push_chunk, pyLastSlice, lastN]
  rcases Nat.lt_or_ge cap (buffer ++ chunk).length with h | h
  · rw [if_pos h, if_neg hcap]
  · have h0 : (buffer ++ chunk).length - cap = 0 := by omega
    rw [if_neg (Nat.not_lt.mpr h), h0, List.drop_zero]

theorem lastN_append {α : Type u} (cap : Nat) (l m : List α) :
    lastN cap (lastN cap l ++ m) = lastN cap (l ++ m) := by
  unfold lastN
  rw [← List.drop_append_of_le_length (Nat.sub_le l.length cap)]
  rw [List.drop_drop]
  simp only [List.length_drop, List.length_append]
  congr 1
  omega

theorem foldl_push_chunk {α : Type u} (cap : Nat) (hcap : cap ≠ 0)
    (l : List α) (chunks : List (List α)) :
    chunks.foldl (push_chunk cap) (lastN cap l) = lastN cap (l ++ chunks.flatten) := by
  induction chunks generalizing l with
  | nil => simp
  | cons c cs ih =>
    simp only [List.foldl_cons, List.flatten_cons]
    rw [push_chunk_eq_lastN cap hcap, lastN_append, ih (l ++ c)]
    simp [List.append_assoc]

theorem rolling_run_eq_lastN (chunks : List (List ℚ)) :
    rolling_run chunks = lastN max_buffer_size chunks.flatten := by
  have h := foldl_push_chunk max_buffer_size (by decide) ([] : List ℚ) chunks
  simpa [rolling_run, lastN] using h

/-- C1: for every sequence of pushed sample chunks, after the updates the
rolling buffer's length is at most `max_buffer_size` (2000); once the total
number of pushed samples exceeds that capacity the buffer holds exactly the
most recent `max_buffer_size` samples in push order (FIFO eviction), and
until then it holds all pushed samples in order.  (Quantifying over all
chunk sequences covers the state after each intermediate update.) -/
theorem pico_C1 (chunks : List (List ℚ)) :
    (rolling_run chunks).length ≤ max_buffer_size ∧
    (max_buffer_size < chunks.flatten.length →
      rolling_run chunks = chunks.flatten.drop (chunks.flatten.length - max_buffer_size)) ∧
    (chunks.flatten.length ≤ max_buffer_size → rolling_run chunks = chunks.flatten) := by
  have hrun := rolling_run_eq_lastN chunks
  refine ⟨?_, ?_, ?_⟩
  · rw [hrun]
    unfold lastN
    simp only [List.length_drop]
    omega
  · intro _
    rw [hrun]
    rfl
  · intro h
    rw [hrun]
    unfold lastN
    have h0 : chunks.flatten.length - max_buffer_size = 0 := by omega
    rw [h0, List.drop_zero]

/-- Witness for C1 at a concrete over-capacity push sequence. -/
theorem pico_C1_witness :
    max_buffer_size < ([List.replicate 2500 (0:ℚ)].flatten).length ∧
    rolling_run [List.replicate 2500 (0:ℚ)] =
      ([List.replicate 2500 (0:ℚ)].flatten).drop
        (([List.replicate 2500 (0:ℚ)].flatten).length - max_buffer_size) := by
  have h : max_buffer_size < ([List.replicate 2500 (0:ℚ)].flatten).length := by
    simp only [List.flatten_cons, List.flatten_nil, List.append_nil,
      List.length_replicate, max_buffer_size]
    omega
  exact ⟨h, (pico_C1 [List.replicate 2500 (0:ℚ)]).2.1 h⟩

/-- C5: range stepping is bounded at the extrema.  `next_range` never moves
the range past the topmost defined value; from any start, `maxVal - val`
calls land exactly on the topmost range; the returned boolean is true
exactly when the call moved the range onto the topmost value; at the top a
further `next_range` is a no-op returning `false`.  Symmetrically for
`prv_range` at the bottommost value. -/
theorem pico_C5 (c : Channel) :
    ((c.next_range).1.range.val ≤ RANGE.maxVal ∧
     (stepN Channel.next_range (RANGE.maxVal - c.range.val).toNat c).range = RANGE.RANGE_50V ∧
     ((c.next_range).2 = true ↔
       (c.range.val < RANGE.maxVal ∧ (c.next_range).1.range.val = RANGE.maxVal)) ∧
     (c.range.val = RANGE.maxVal → c.next_range = (c, false))) ∧
    (RANGE.minVal ≤ (c.prv_range).1.range.val ∧
     (stepN Channel.prv_range (c.range.val - RANGE.minVal).toNat c).range = RANGE.RANGE_10MV ∧
     ((c.prv_range).2 = true ↔
       (RANGE.minVal < c.range.val ∧ (c.prv_range).1.range.val = RANGE.minVal)) ∧
     (c.range.val = RANGE.minVal → c.prv_range = (c, false))) := by
  obtain ⟨n, a, r, o, res, buf⟩ := c
  cases r <;>
    simp [Channel.next_range, Channel.prv_range, RANGE.ofValue?, RANGE.all, RANGE.val,
      RANGE.maxVal, RANGE.minVal, stepN, List.find?, List.foldl]

/-- Witness for C5: at the topmost range a further widen is a no-op, and at
the bottommost range a further narrow is a no-op. -/
theorem pico_C5_witness :
    ({ range := RANGE.RANGE_50V : Channel }.next_range
        = ({ range := RANGE.RANGE_50V : Channel }, false)) ∧
    ({ range := RANGE.RANGE_10MV : Channel }.prv_range
        = ({ range := RANGE.RANGE_10MV : Channel }, false)) :=
  ⟨(pico_C5 { range := RANGE.RANGE_50V }).1.2.2.2 (by decide),
   (pico_C5 { range := RANGE.RANGE_10MV }).2.2.2.2 (by decide)⟩

theorem pyInt_of_nonneg (q : ℚ) (h : 0 ≤ q) : pyInt q = ⌊q⌋ := by
  unfold pyInt
  rw [if_neg (not_lt.mpr h)]

theorem floor_scale_bounds (si k : ℚ) (hk : 0 < k) (h1 : 1 ≤ si * k) :
    1 ≤ ⌊si * k⌋ ∧ (⌊si * k⌋ : ℚ) * (1/k) ≤ si ∧ si < ((⌊si * k⌋ : ℚ) + 1) * (1/k) := by
  refine ⟨Int.le_floor.mpr (by exact_mod_cast h1), ?_, ?_⟩
  · rw [mul_one_div, div_le_iff₀ hk]
    exact Int.floor_le (si * k)
  · rw [mul_one_div, lt_div_iff₀ hk]
    exact Int.lt_floor_add_one (si * k)

/-- Soundness of the sample-clock translation at frequency `f`: the returned
value is at least 1, `value * unit_seconds` approximates `1/f` from below to
within one unit step (truncation), and the unit is the coarsest one whose
value is at least 1 (seconds, else milliseconds, else microseconds, else
nanoseconds). -/
def translator_sound (f : ℚ) : Prop :=
  let v := (calculate_sample_interval f).1
  let u := (calculate_sample_interval f).2
  1 ≤ v ∧
  (v : ℚ) * unit_seconds u ≤ 1 / f ∧
  1 / f < ((v : ℚ) + 1) * unit_seconds u ∧
  (1 ≤ 1 / f → u = TIME_UNITS.S) ∧
  (1/1000 ≤ 1 / f → 1 / f < 1 → u = TIME_UNITS.MS) ∧
  (1/1000000 ≤ 1 / f → 1 / f < 1/1000 → u = TIME_UNITS.US) ∧
  (1 / f < 1/1000000 → u = TIME_UNITS.NS)

/-- Counterexample to C3 as literally stated: the claim quantifies over all
frequencies `f ≥ 1`, but at `f = 10^10` the translator returns the value 0
(with the nanoseconds unit), which is not `≥ 1`. -/
theorem pico_C3_cex :
    (1:ℚ) ≤ 10^10 ∧
    calculate_sample_interval ((10:ℚ)^10) = (0, TIME_UNITS.NS) ∧
    ¬ (1 ≤ (calculate_sample_interval ((10:ℚ)^10)).1) := by
  norm_num [calculate_sample_interval, pyInt]

/-- C3 (amended): for every frequency `1 ≤ f ≤ 10^9` the translator returns
a value `≥ 1` in the coarsest unit for which the value is at least 1,
obtained by truncation so that `value * unit_seconds` is within one
unit-step below `1/f`; moreover `f = 2000` yields `(500, microseconds)` and
`f = 1` yields `(1, seconds)`. -/
theorem pico_C3 :
    calculate_sample_interval 2000 = (500, TIME_UNITS.US) ∧
    calculate_sample_interval 1 = (1, TIME_UNITS.S) ∧
    ∀ f : ℚ, 1 ≤ f → f ≤ 10^9 → translator_sound f := by
  refine ⟨by norm_num [calculate_sample_interval, pyInt],
    by norm_num [calculate_sample_interval, pyInt], ?_⟩
  intro f h1 h9
  have hf0 : (0:ℚ) < f := lt_of_lt_of_le one_pos h1
  have hsige : 1/1000000000 ≤ 1 / f := by
    apply one_div_le_one_div_of_le hf0
    norm_num at h9 ⊢
    exact h9
  unfold translator_sound calculate_sample_interval
  dsimp only
  split_ifs with hS hMS hUS
  · have hb := floor_scale_bounds (1/f) 1 one_pos (by simpa using hS)
    rw [pyInt_of_nonneg _ (by positivity)]
    simp only [unit_seconds, mul_one] at hb ⊢
    refine ⟨hb.1, by linarith [hb.2.1], by linarith [hb.2.2], fun _ => trivial, ?_, ?_, ?_⟩
    · intro _ hlt
      exact absurd hS (not_le.mpr hlt)
    · intro _ hlt
      exact absurd hS (not_le.mpr (by linarith))
    · intro hlt
      exact absurd hS (not_le.mpr (by linarith))
  · have hb := floor_scale_bounds (1/f) 1000 (by norm_num)
      ((div_le_iff₀ (by norm_num)).mp hMS)
    rw [pyInt_of_nonneg _ (by positivity)]
    simp only [unit_seconds] at hb ⊢
    refine ⟨hb.1, hb.2.1, hb.2.2, ?_, fun _ _ => trivial, ?_, ?_⟩
    · intro hge
      exact absurd hge hS
    · intro _ hlt
      exact absurd hMS (not_le.mpr hlt)
    · intro hlt
      exact absurd hMS (not_le.mpr (by linarith))
  · have hb := floor_scale_bounds (1/f) 1000000 (by norm_num)
      ((div_le_iff₀ (by norm_num)).mp hUS)
    rw [pyInt_of_nonneg _ (by positivity)]
    simp only [unit_seconds] at hb ⊢
    refine ⟨hb.1, hb.2.1, hb.2.2, ?_, ?_, fun _ _ => trivial, ?_⟩
    · intro hge
      exact absurd hge hS
    · intro hge _
      exact absurd hge hMS
    · intro hlt
      exact absurd hUS (not_le.mpr hlt)
  · have hb := floor_scale_bounds (1/f) 1000000000 (by norm_num)
      ((div_le_iff₀ (by norm_num)).mp hsige)
    rw [pyInt_of_nonneg _ (by positivity)]
    simp only [unit_seconds] at hb ⊢
    refine ⟨hb.1, hb.2.1, hb.2.2, ?_, ?_, ?_, fun _ => trivial⟩
    · intro hge
      exact absurd hge hS
    · intro hge _
      exact absurd hge hMS
    · intro hge _
      exact absurd hge hUS

/-- Witness for C3 at the concrete frequency `f = 4`. -/
theorem pico_C3_witness : 1 ≤ (4:ℚ) ∧ (4:ℚ) ≤ 10^9 ∧ translator_sound 4 :=
  ⟨by norm_num, by norm_num, pico_C3.2.2 4 (by norm_num) (by norm_num)⟩

/-- CPython attribute semantics of the un-annotated `buffer = []` in the
`Channel` dataclass of `pico_app/tools.py`: since the assignment carries no
type annotation, `buffer` is not a dataclass field but a *class attribute* —
one single list object shared by every instance that has not shadowed it.
`channel.buffer = …` (the truncation assignment in `update_data`) creates a
per-instance attribute; `channel.buffer.extend(…)` mutates whichever object
the attribute lookup resolves to. -/
structure BufferHeap where
  classBuf : List ℚ
  own : CHANNEL → Option (List ℚ)

/-- Attribute lookup `channel.buffer`: the instance attribute if present,
else the class attribute. -/
def readBuffer (h : BufferHeap) (ch : CHANNEL) : List ℚ :=
  (h.own ch).getD h.classBuf

/-- `channel.buffer.extend(data)`: in-place mutation of the object the
attribute lookup resolves to. -/
def extendBuffer (h : BufferHeap) (ch : CHANNEL) (data : List ℚ) : BufferHeap :=
  match h.own ch with
  | some b => { h with own := fun c => if c = ch then some (b ++ data) else h.own c }
  | none => { h with classBuf := h.classBuf ++ data }

/-- `channel.buffer = channel.buffer[-max_buffer_size:]`: attribute
assignment, which creates/overwrites the per-instance attribute. -/
def assignBuffer (h : BufferHeap) (ch : CHANNEL) (b : List ℚ) : BufferHeap :=
  { h with own := fun c => if c = ch then some b else h.own c }

/-- One channel's buffer mutation in `MainWindow.update_data` under the
attribute-heap model: extend, then truncate (by assignment) if the resolved
list now exceeds `max_buffer_size`. -/
def update_data_heap (h : BufferHeap) (ch : CHANNEL) (data : List ℚ) : BufferHeap :=
  let h1 := extendBuffer h ch data
  let b := readBuffer h1 ch
  if max_buffer_size < b.length then assignBuffer h1 ch (pyLastSlice max_buffer_size b)
  else h1

/-- A fresh program state: no channel has ever been truncated, so every
`Channel` instance resolves `buffer` to the single class-level list. -/
def fresh_heap : BufferHeap := { classBuf := [], own := fun _ => none }

/-- C2 is violated by the code: on fresh channels, pushing one sample into
channel A's rolling buffer also changes channel B's rolling buffer (both
names resolve to the same class-attribute list), so the buffers are aliased,
contradicting both the claim and the dataclass's evident intent. -/
theorem pico_C2_bug :
    readBuffer fresh_heap CHANNEL.B = [] ∧
    readBuffer (update_data_heap fresh_heap CHANNEL.A [1]) CHANNEL.B = [1] ∧
    readBuffer (update_data_heap fresh_heap CHANNEL.A [1]) CHANNEL.A =
      readBuffer (update_data_heap fresh_heap CHANNEL.A [1]) CHANNEL.B :=
  ⟨rfl, rfl, rfl⟩

/-- The clamp inside `MainWindow.offset_changed` (lines 251–256): if the
current offset lies outside `[mn, mx]`, replace it by the violated bound. -/
def clamp_offset (mn mx current : ℚ) : ℚ :=
  if ¬ (mn ≤ current ∧ current ≤ mx) then
    if current < mn then mn
    else if mx < current then mx
    else current
  else current

/-- `MainWindow.offset_changed`: store the requested offset, query the
device's offset bounds for the channel's current range
(`get_analogue_offset` returns `(max, min)` in that order), clamp against
them, and store the result.  The device query is the external collaborator,
passed in as `bounds`. -/
def offset_changed (bounds : RANGE → ℚ × ℚ) (c : Channel) (requested : ℚ) : Channel :=
  let c1 := { c with offset := requested }
  let mx := (bounds c1.range).1
  let mn := (bounds c1.range).2
  { c1 with offset := clamp_offset mn mx c1.offset }

/-- `ChannelBtn.apply_range` from `gui/costumWidgets.py` (lines 42–46): the
`if range:` guard stores the new range only when the argument is *truthy* —
`None` (the default, used by the scale-up/down paths) is falsy, and so is an
`IntEnum` member whose value is 0, i.e. `RANGE_10MV`. -/
def apply_range (c : Channel) (arg : Option RANGE) : Channel :=
  match arg with
  | none => c
  | some r => if r.val = 0 then c else { c with range := r }

/-- The state effect of `MainWindow.range_changed` on the channel:
`apply_range(getattr(RANGE, …))` with the selected range, then
`offset_changed` re-reads the requested offset (the offset spinbox value)
and re-clamps it against the bounds of the channel's now-current range. -/
def range_changed (bounds : RANGE → ℚ × ℚ) (c : Channel) (r : RANGE)
    (requested : ℚ) : Channel :=
  offset_changed bounds (apply_range c (some r)) requested

/-- C4 is violated by the code: `apply_range`'s `if range:` guard treats
`RANGE_10MV` (`IntEnum` value 0) as falsy, so selecting the bottommost
range stores nothing and the subsequent clamp runs against the *old*
range's bounds.  Concretely, with the channel at `RANGE_10V`, device bounds
±10 for `RANGE_10V` and ±1 for `RANGE_10MV`, and requested offset 5: after
`range_changed` to `RANGE_10MV` the stored range is still `RANGE_10V` and
the stored offset is 5, exceeding the `RANGE_10MV` maximum of 1. -/
theorem pico_C4_bug :
    (range_changed
        (fun r => if r = RANGE.RANGE_10MV then ((1:ℚ), (-1:ℚ)) else (10, -10))
        { range := RANGE.RANGE_10V } RANGE.RANGE_10MV 5).range = RANGE.RANGE_10V ∧
    (range_changed
        (fun r => if r = RANGE.RANGE_10MV then ((1:ℚ), (-1:ℚ)) else (10, -10))
        { range := RANGE.RANGE_10V } RANGE.RANGE_10MV 5).offset = 5 ∧
    ¬ ((range_changed
        (fun r => if r = RANGE.RANGE_10MV then ((1:ℚ), (-1:ℚ)) else (10, -10))
        { range := RANGE.RANGE_10V } RANGE.RANGE_10MV 5).offset
          ≤ ((fun r : RANGE =>
                if r = RANGE.RANGE_10MV then ((1:ℚ), (-1:ℚ)) else (10, -10))
              RANGE.RANGE_10MV).1) := by
  have hne : RANGE.RANGE_10V ≠ RANGE.RANGE_10MV := by decide
  refine ⟨rfl, ?_, ?_⟩ <;>
    norm_num [range_changed, offset_changed, apply_range, clamp_offset, RANGE.val, hne]

/-- The successfully parsed content of one channel's section of
`config.ini`, as read by `Channel.from_dict` (keys `name`, `active`,
`range`, `offset`); a missing section or any parse failure is the exception
path, modelled as `none`. -/
structure ParsedChannelSection where
  name : String
  active : Bool
  range : RANGE
  offset : ℚ
deriving DecidableEq, Repr

/-- `Channel.from_dict` from `pico_app/tools.py`: build a `Channel` from a
parsed config section, or fall back to the dataclass defaults (`active =
False`, `range = RANGE.RANGE_10V`, `offset = 0`) when the section is
missing or malformed. -/
def Channel.from_dict (nm : String) (parsed : Option ParsedChannelSection) : Channel :=
  match parsed with
  | some s => { name := s.name, active := s.active, range := s.range, offset := s.offset }
  | none => { name := nm }

/-- `MainWindow.load_config`: the presets read from `config.ini`, or the
documented defaults `(2000, "./data")` when the file or its `presets`
section is missing or malformed. -/
def load_config (parsed : Option (Int × String)) : Int × String :=
  match parsed with
  | some p => p
  | none => (2000, "./data")

/-- Counterexample to C7 as stated: the fallback channel's range is
`RANGE_10V` (enum value 9), not the minimum defined range (`RANGE_10MV`,
enum value 0) that the claim demands. -/
theorem pico_C7_cex :
    RANGE.minVal = RANGE.RANGE_10MV.val ∧
    (Channel.from_dict "A" none).range = RANGE.RANGE_10V ∧
    (Channel.from_dict "A" none).range.val ≠ RANGE.minVal := by
  refine ⟨by decide, rfl, by decide⟩

/-- C7 (amended): when the configuration (or a channel's section) is
missing or malformed, loading falls back to the defaults instead of
failing: `sample_frequency = 2000`, destination directory `"./data"`, and
every channel inactive with zero offset — at range `RANGE_10V` (the
dataclass default), not at the minimum range. -/
theorem pico_C7 (nm : String) :
    load_config none = (2000, "./data") ∧
    (Channel.from_dict nm none).active = false ∧
    (Channel.from_dict nm none).range = RANGE.RANGE_10V ∧
    (Channel.from_dict nm none).offset = 0 ∧
    (Channel.from_dict nm none).name = nm :=
  ⟨rfl, rfl, rfl, rfl, rfl⟩

/-- `Channel.max_adc = 32767.` from `pico_app/tools.py`. -/
def max_adc : ℚ := 32767

/-- `self.scope_scale = 10` from `MainWindow.setup_scope_screen`. -/
def scope_scale : ℚ := 10

/-- One channel's turn in `MainWindow.update_data` (lines 294–314), on the
per-instance buffer view: an inactive channel gets its plot cleared and its
buffer left untouched; an active channel's raw chunk is normalized
(`data / channel.max_adc * self.scope_scale`), appended to the rolling
buffer with FIFO eviction, and the resulting buffer is plotted.  Returns
the updated channel and the plotted data. -/
def update_data_channel (c : Channel) (raw : List Int) : Channel × List ℚ :=
  if c.active = false then (c, [])
  else
    let data := raw.map (fun v => (v : ℚ) / max_adc * scope_scale)
    let b := push_chunk max_buffer_size c.buffer data
    ({ c with buffer := b }, b)

/-- `MainWindow.streaming_ready_callback` chunk construction: the delivered
`data_chunk` dictionary holds `buffer[start_index : start_index +
no_of_samples]` for each *active* channel and no entry for inactive ones. -/
def streaming_chunk (settings : CHANNEL → Channel) (buffers : CHANNEL → List Int)
    (start_index no_of_samples : Nat) : CHANNEL → Option (List Int) :=
  fun ch =>
    if (settings ch).active then
      some (((buffers ch).drop start_index).take no_of_samples)
    else none

/-- `MainWindow.setup_acquisition` (lines 383–392): allocate and register
one zero-filled `size_one_buffer`-long int16 device buffer for *every*
available channel — the loop body never consults `settings[ch].active`. -/
def setup_acquisition_buffers (_settings : CHANNEL → Channel) :
    List (CHANNEL × List Int) :=
  AVAILABLE_CHANNELS.map (fun ch => (ch, List.replicate size_one_buffer 0))

/-- `self.record_file`: the per-channel open recording streams, each holding
the int16 samples appended so far; a channel absent from the dict has no
open stream. -/
def RecordFiles : Type := CHANNEL → Option (List Int)

/-- numpy's cast to `int16` (as in `np.array(…, dtype='int16')`): wrap
modulo 2^16 into `[-32768, 32768)`. -/
def toInt16 (x : Int) : Int := (x + 32768) % 65536 - 32768

/-- The body of `MainWindow.record_data`'s loop for one channel (lines
356–358): if the channel is active, look up `incoming_data[ch]` and
`self.record_file[ch]` — each raising `KeyError` when the key is absent —
and append the chunk, cast to int16, to the stream; inactive channels are
skipped. -/
def record_channel (settings : CHANNEL → Channel)
    (incoming : CHANNEL → Option (List Int)) (files : RecordFiles)
    (ch : CHANNEL) : Except Unit RecordFiles :=
  if (settings ch).active then
    match incoming ch with
    | none => .error ()
    | some d =>
      match files ch with
      | none => .error ()
      | some f => .ok (fun c => if c = ch then some (f ++ d.map toInt16) else files c)
  else .ok files

/-- `MainWindow.record_data` (lines 353–358): a no-op unless
`self.is_recording`; otherwise append every active channel's chunk to its
open stream, propagating any `KeyError`. -/
def record_data (is_recording : Bool) (settings : CHANNEL → Channel)
    (incoming : CHANNEL → Option (List Int)) (files : RecordFiles) :
    Except Unit RecordFiles :=
  if is_recording = false then .ok files
  else AVAILABLE_CHANNELS.foldlM (fun fs ch => record_channel settings incoming fs ch) files

theorem record_channel_inactive_eq (settings : CHANNEL → Channel)
    (incoming : CHANNEL → Option (List Int)) (files : RecordFiles)
    (ch : CHANNEL) (fs : RecordFiles)
    (h : record_channel settings incoming files ch = .ok fs)
    (ch' : CHANNEL) (h' : (settings ch').active = false) : fs ch' = files ch' := by
  unfold record_channel at h
  by_cases ha : (settings ch).active
  · rw [if_pos ha] at h
    cases hi : incoming ch with
    | none => rw [hi] at h; cases h
    | some d =>
      rw [hi] at h
      cases hf : files ch with
      | none => rw [hf] at h; cases h
      | some f =>
        rw [hf] at h
        cases h
        have hne : ch' ≠ ch := fun he => by rw [he, ha] at h'; cases h'
        simp [hne]
  · rw [if_neg ha] at h
    cases h
    rfl

theorem record_fold_inactive (settings : CHANNEL → Channel)
    (incoming : CHANNEL → Option (List Int)) (l : List CHANNEL)
    (files fs : RecordFiles)
    (h : l.foldlM (fun fs ch => record_channel settings incoming fs ch) files = .ok fs)
    (ch' : CHANNEL) (h' : (settings ch').active = false) : fs ch' = files ch' := by
  induction l generalizing files with
  | nil =>
    cases h
    rfl
  | cons c cs ih =>
    rw [List.foldlM_cons] at h
    cases hc : record_channel settings incoming files c with
    | error e =>
      rw [hc] at h
      cases h
    | ok fs1 =>
      rw [hc] at h
      rw [ih fs1 h, record_channel_inactive_eq settings incoming files c fs1 hc ch' h']

/-- Counterexample to C8 as stated: with every channel inactive,
`setup_acquisition` still allocates and registers a device buffer for
channel A — allocation does not depend on the `active` flag. -/
theorem pico_C8_cex :
    ((fun _ => ({ name := "A" } : Channel)) CHANNEL.A).active = false ∧
    (CHANNEL.A, List.replicate size_one_buffer 0) ∈
      setup_acquisition_buffers (fun _ => ({ name := "A" } : Channel)) := by
  refine ⟨rfl, ?_⟩
  simp [setup_acquisition_buffers, AVAILABLE_CHANNELS]

/-- C8 (amended): for an inactive channel, a reconfiguration and a poll tick
produce no rolling-buffer/display update for it (its channel state is
unchanged and its plot is cleared), it is excluded from the delivered data
chunk, and no recording output is produced for it — but, contrary to the
original claim, a device buffer IS still allocated and registered for it. -/
theorem pico_C8 (settings : CHANNEL → Channel) (ch : CHANNEL) (raw : List Int)
    (incoming : CHANNEL → Option (List Int)) (files : RecordFiles)
    (buffers : CHANNEL → List Int) (start n : Nat)
    (h : (settings ch).active = false) :
    (ch, List.replicate size_one_buffer 0) ∈ setup_acquisition_buffers settings ∧
    update_data_channel (settings ch) raw = (settings ch, []) ∧
    streaming_chunk settings buffers start n ch = none ∧
    (∀ fs, record_data true settings incoming files = Except.ok fs → fs ch = files ch) ∧
    record_data false settings incoming files = Except.ok files := by
  refine ⟨?_, ?_, ?_, ?_, rfl⟩
  · cases ch <;> simp [setup_acquisition_buffers, AVAILABLE_CHANNELS]
  · simp [update_data_channel, h]
  · simp [streaming_chunk, h]
  · intro fs hok
    unfold record_data at hok
    rw [if_neg (by simp)] at hok
    exact record_fold_inactive settings incoming AVAILABLE_CHANNELS files fs hok ch h

/-- Witness for C8 with every channel inactive and a one-sample chunk. -/
theorem pico_C8_witness :
    update_data_channel ((fun _ => ({ name := "B" } : Channel)) CHANNEL.B) [5]
      = ((fun _ => ({ name := "B" } : Channel)) CHANNEL.B, []) ∧
    streaming_chunk (fun _ => ({ name := "B" } : Channel)) (fun _ => [5]) 0 1 CHANNEL.B
      = none :=
  ⟨(pico_C8 (fun _ => ({ name := "B" } : Channel)) CHANNEL.B [5] (fun _ => none)
      (fun _ => none) (fun _ => [5]) 0 1 rfl).2.1,
   (pico_C8 (fun _ => ({ name := "B" } : Channel)) CHANNEL.B [5] (fun _ => none)
      (fun _ => none) (fun _ => [5]) 0 1 rfl).2.2.1⟩

/-- The streaming session state produced by `setup_acquisition`: the sample
interval/unit handed to `run_streaming` and the registered device buffers. -/
structure Session where
  sample_interval : Int
  time_unit : TIME_UNITS
  buffers : List (CHANNEL × List Int)
deriving DecidableEq, Repr

/-- The application state that `refresh_hardware` reads and writes: the
per-channel settings (with their rolling buffers), the sample-rate widget
value, the current streaming session, and the poll timer flag. -/
structure AppState where
  settings : CHANNEL → Channel
  sample_rate : ℚ
  session : Option Session
  timer_running : Bool

/-- `MainWindow.refresh_hardware` (lines 132–144) together with
`setup_acquisition`'s state effects: stop the timer, clear every channel's
rolling buffer, push the channel and trigger configuration to the device,
re-allocate the device buffers, translate the sample rate and restart
streaming, then restart the timer. -/
def refresh_hardware (st : AppState) : AppState :=
  let cleared := fun ch => { st.settings ch with buffer := ([] : List ℚ) }
  let res := calculate_sample_interval st.sample_rate
  { st with
    settings := cleared
    session := some { sample_interval := res.1, time_unit := res.2,
                      buffers := setup_acquisition_buffers cleared }
    timer_running := true }

/-- C9: `refresh_hardware` is idempotent — a second call with the settings
and sample rate unchanged produces exactly the same channel and session
state — and after every call each channel's rolling buffer is empty. -/
theorem pico_C9 (st : AppState) :
    refresh_hardware (refresh_hardware st) = refresh_hardware st ∧
    ∀ ch, ((refresh_hardware st).settings ch).buffer = [] := by
  constructor
  · unfold refresh_hardware
    rfl
  · intro ch
    rfl

/-- Counterexample to C10 as stated: with recording active and channel A
active but owning no open stream (e.g. activated after recording started),
the append is not ignored — `self.record_file[ch]` raises `KeyError`. -/
theorem pico_C10_cex :
    record_data true (fun _ => ({ name := "A", active := true } : Channel))
      (fun _ => some [0]) (fun _ => none) = .error () := rfl

/-- C10 (amended): appending before recording has started is a no-op (no
file write occurs); when recording is active, channels that have no open
stream are ignored only when they are inactive — for an active channel
with no open stream the lookup `self.record_file[ch]` raises `KeyError`
rather than being ignored. -/
theorem pico_C10 (settings : CHANNEL → Channel)
    (incoming : CHANNEL → Option (List Int)) (files : RecordFiles)
    (d : List Int) :
    record_data false settings incoming files = Except.ok files ∧
    ((settings CHANNEL.A).active = true → incoming CHANNEL.A = some d →
      files CHANNEL.A = none →
      record_data true settings incoming files = .error ()) ∧
    (∀ fs, record_data true settings incoming files = Except.ok fs →
      ∀ ch, (settings ch).active = false → fs ch = files ch) := by
  refine ⟨rfl, ?_, ?_⟩
  · intro ha hi hf
    unfold record_data
    rw [if_neg (by simp)]
    show (AVAILABLE_CHANNELS.foldlM
      (fun fs ch => record_channel settings incoming fs ch) files) = .error ()
    rw [AVAILABLE_CHANNELS, List.foldlM_cons]
    have hA : record_channel settings incoming files CHANNEL.A = .error () := by
      unfold record_channel
      rw [if_pos ha, hi, hf]
    rw [hA]
    rfl
  · intro fs hok ch h
    unfold record_data at hok
    rw [if_neg (by simp)] at hok
    exact record_fold_inactive settings incoming AVAILABLE_CHANNELS files fs hok ch h

/-- Witness for C10 at a concrete state: recording active, channel A active
with an incoming chunk but no open stream — the append raises. -/
theorem pico_C10_witness :
    record_data true (fun _ => ({ name := "A", active := true } : Channel))
      (fun _ => some [3]) (fun _ => none) = .error () :=
  (pico_C10 (fun _ => ({ name := "A", active := true } : Channel))
      (fun _ => some [3]) (fun _ => none) [3]).2.1 rfl rfl rfl

/-! ### Recording file round trip (C6)

`MainWindow.start_recording` writes a UTF-8 header
`"Time Interval: {…}\nScale: {…}\nOffset: {…}\n\n"`, after which
`record_data` appends each chunk's samples as raw little-endian int16.
`read_recorded_data` in `pico_app/data_reader.py` reads lines until a blank
line, parses each `key: value` line (stripping whitespace around both), and
reads the remaining bytes as int16.  Files are byte lists (`List Nat`,
each < 256); the numeric header values are kept as their written decimal
byte strings (Python's float formatting/parsing is outside the embedding,
and is an exact inverse pair). -/

/-- ASCII bytes of `"Time Interval"`. -/
def keyTimeInterval : List Nat :=
  [84, 105, 109, 101, 32, 73, 110, 116, 101, 114, 118, 97, 108]

/-- ASCII bytes of `"Scale"`. -/
def keyScale : List Nat := [83, 99, 97, 108, 101]

/-- ASCII bytes of `"Offset"`. -/
def keyOffset : List Nat := [79, 102, 102, 115, 101, 116]

/-- The header bytes written by `start_recording` (lines 333–340): three
`key: value` lines and a terminating blank line (`"…Offset: {v}" + "\n\n"`),
where 58/32/10 are `':'`, `' '`, `'\n'`. -/
def write_header (dt scale offset : List Nat) : List Nat :=
  keyTimeInterval ++ [58, 32] ++ dt ++ [10] ++
  keyScale ++ [58, 32] ++ scale ++ [10] ++
  keyOffset ++ [58, 32] ++ offset ++ [10, 10]

/-- Little-endian serialization of one sample by
`np.array(…, dtype='int16').tofile(…)`: the two bytes of `x mod 2^16`. -/
def encode_int16_le (x : Int) : List Nat :=
  [(x % 65536).toNat % 256, (x % 65536).toNat / 256]

/-- One recording file: the header, then each delivered chunk's samples
appended in delivery order with no framing (`record_data`, lines 353–358). -/
def write_recording (dt scale offset : List Nat) (chunks : List (List Int)) :
    List Nat :=
  chunks.foldl (fun file c => file ++ (c.map encode_int16_le).flatten)
    (write_header dt scale offset)

/-- `f.readline()`: the bytes up to and including the first `'\n'` (byte
10), or everything at end of file; returns the line and the rest. -/
def readline : List Nat → List Nat × List Nat
  | [] => ([], [])
  | b :: rest =>
    if b = 10 then ([10], rest)
    else
      let r := readline rest
      (b :: r.1, r.2)

/-- Python's whitespace bytes for `str.strip()`:
`' '`, `'\t'`, `'\n'`, `'\r'`, `'\v'`, `'\f'`. -/
def isSpaceByte (b : Nat) : Bool :=
  b = 32 || b = 9 || b = 10 || b = 13 || b = 11 || b = 12

/-- `str.strip()`: remove leading and trailing whitespace. -/
def stripBytes (l : List Nat) : List Nat :=
  ((l.dropWhile isSpaceByte).reverse.dropWhile isSpaceByte).reverse

/-- The header-reading loop of `read_recorded_data` (lines 21–26):
`readline` until a line whose `strip()` is empty (a blank line, or end of
file).  Returns the accumulated header lines and the unread rest.  Fuel
bounds the iteration; `read_recorded_data` passes the file length, which
suffices since every kept line is nonempty. -/
def read_header_lines : Nat → List Nat → List (List Nat) × List Nat
  | 0, bs => ([], bs)
  | fuel + 1, bs =>
    if stripBytes (readline bs).1 = [] then ([], (readline bs).2)
    else
      ((readline bs).1 :: (read_header_lines fuel (readline bs).2).1,
       (read_header_lines fuel (readline bs).2).2)

/-- Parsing of one header line (lines 30–33): lines containing `':'` are
split at the first `':'` into a stripped key and a stripped value; other
lines are skipped. -/
def parse_header_line (line : List Nat) : Option (List Nat × List Nat) :=
  if 58 ∈ line then
    some (stripBytes (line.takeWhile (fun b => b != 58)),
          stripBytes ((line.dropWhile (fun b => b != 58)).tail))
  else none

/-- Inverse of `encode_int16_le`: `np.fromfile(f, dtype=np.int16)` decoding
of one little-endian sample. -/
def decode_int16_le (b0 b1 : Nat) : Int :=
  let u := b0 % 256 + 256 * (b1 % 256)
  if u < 32768 then (u : Int) else (u : Int) - 65536

/-- `np.fromfile(f, dtype=np.int16)`: decode consecutive byte pairs (a
trailing odd byte is dropped). -/
def decode_samples : List Nat → List Int
  | b0 :: b1 :: rest => decode_int16_le b0 b1 :: decode_samples rest
  | _ => []

/-- `read_recorded_data` for one file: parse the header lines (as
key/value byte-string pairs) and decode the remaining bytes as int16
samples. -/
def read_recorded_data (bs : List Nat) : List (List Nat × List Nat) × List Int :=
  ((read_header_lines bs.length bs).1.filterMap parse_header_line,
   decode_samples (read_header_lines bs.length bs).2)

theorem readline_no_nl (xs rest : List Nat) (h : ∀ b ∈ xs, b ≠ 10) :
    readline (xs ++ 10 :: rest) = (xs ++ [10], rest) := by
  induction xs with
  | nil => simp [readline]
  | cons b bs ih =>
    have hb : b ≠ 10 := h b (List.mem_cons_self b bs)
    have ih' := ih (fun c hc => h c (List.mem_cons_of_mem b hc))
    simp only [List.cons_append, readline, if_neg hb, List.append_eq, ih']

theorem dropWhile_all_false {p : Nat → Bool} {l : List Nat}
    (h : ∀ b ∈ l, p b = false) : l.dropWhile p = l := by
  cases l with
  | nil => rfl
  | cons c l' => simp [List.dropWhile, h c (List.mem_cons_self c l')]

theorem mem_dropWhile_of_not_pred {p : Nat → Bool} (L : List Nat) (b : Nat)
    (hb : b ∈ L) (hs : p b = false) : b ∈ L.dropWhile p := by
  induction L with
  | nil => cases hb
  | cons c L' ih =>
    by_cases hc : p c = true
    · rw [List.dropWhile_cons_of_pos hc]
      rcases List.mem_cons.mp hb with he | hm
      · rw [he] at hs
        rw [hs] at hc
        cases hc
      · exact ih hm
    · rw [List.dropWhile_cons_of_neg hc]
      exact hb

theorem stripBytes_ne_nil (L : List Nat) (b : Nat) (hb : b ∈ L)
    (hs : isSpaceByte b = false) : stripBytes L ≠ [] := by
  intro h
  unfold stripBytes at h
  rw [List.reverse_eq_nil_iff, List.dropWhile_eq_nil_iff] at h
  have hb1 : b ∈ L.dropWhile isSpaceByte := mem_dropWhile_of_not_pred L b hb hs
  have := h b (List.mem_reverse.mpr hb1)
  rw [hs] at this
  cases this

theorem stripBytes_space_pad (v : List Nat)
    (hv : ∀ b ∈ v, isSpaceByte b = false) :
    stripBytes (32 :: (v ++ [10])) = v := by
  unfold stripBytes
  cases v with
  | nil => rfl
  | cons c v' =>
    have hc : isSpaceByte c = false := hv c (List.mem_cons_self c v')
    rw [List.cons_append, List.dropWhile_cons_of_pos (by rfl),
      List.dropWhile_cons_of_neg (by simp [hc])]
    rw [show (c :: (v' ++ [10])).reverse = 10 :: (v'.reverse ++ [c]) by simp]
    rw [List.dropWhile_cons_of_pos (by rfl)]
    rw [dropWhile_all_false (fun b hb => by
      rcases List.mem_append.mp hb with h1 | h2
      · exact hv b (List.mem_cons_of_mem c (List.mem_reverse.mp h1))
      · rw [List.mem_singleton.mp h2]
        exact hc)]
    rw [show (v'.reverse ++ [c]).reverse = c :: v' by simp]

theorem takeWhile_append_of_all {p : Nat → Bool} (k l : List Nat)
    (h : ∀ b ∈ k, p b = true) : (k ++ l).takeWhile p = k ++ l.takeWhile p := by
  induction k with
  | nil => rfl
  | cons c k' ih =>
    rw [List.cons_append, List.takeWhile_cons_of_pos (h c (List.mem_cons_self c k')),
      ih (fun b hb => h b (List.mem_cons_of_mem c hb)), List.cons_append]

theorem dropWhile_append_of_all {p : Nat → Bool} (k l : List Nat)
    (h : ∀ b ∈ k, p b = true) : (k ++ l).dropWhile p = l.dropWhile p := by
  induction k with
  | nil => rfl
  | cons c k' ih =>
    rw [List.cons_append, List.dropWhile_cons_of_pos (h c (List.mem_cons_self c k')),
      ih (fun b hb => h b (List.mem_cons_of_mem c hb))]

theorem parse_header_line_kv (k v : List Nat) (hk58 : ∀ b ∈ k, b ≠ 58)
    (hkstrip : stripBytes k = k) (hv : ∀ b ∈ v, isSpaceByte b = false) :
    parse_header_line (k ++ [58, 32] ++ v ++ [10]) = some (k, v) := by
  unfold parse_header_line
  rw [if_pos (by simp)]
  have hk : ∀ b ∈ k, (b != 58) = true := fun b hb => by
    simpa using hk58 b hb
  rw [List.append_assoc, List.append_assoc, takeWhile_append_of_all k _ hk,
    dropWhile_append_of_all k _ hk]
  rw [show ([58, 32] : List Nat) ++ (v ++ [10]) = 58 :: 32 :: (v ++ [10]) from rfl]
  rw [List.takeWhile_cons_of_neg (by simp), List.append_nil, hkstrip]
  rw [List.dropWhile_cons_of_neg (by simp), List.tail_cons]
  rw [stripBytes_space_pad v hv]

theorem no_nl_line (k v : List Nat) (hk : ∀ b ∈ k, b ≠ 10)
    (hv : ∀ b ∈ v, isSpaceByte b = false) :
    ∀ b ∈ (k ++ [58, 32]) ++ v, b ≠ 10 := by
  intro b hb he
  rcases List.mem_append.mp hb with h1 | h2
  · rcases List.mem_append.mp h1 with h3 | h4
    · exact hk b h3 he
    · rw [he] at h4
      exact absurd h4 (by decide)
  · have hsb := hv b h2
    rw [he] at hsb
    exact absurd hsb (by decide)

theorem read_header_lines_write_header (dt scale offset data : List Nat) (m : Nat)
    (hdt : ∀ b ∈ dt, isSpaceByte b = false)
    (hscale : ∀ b ∈ scale, isSpaceByte b = false)
    (hoffset : ∀ b ∈ offset, isSpaceByte b = false) :
    read_header_lines (m + 4) (write_header dt scale offset ++ data) =
      ([keyTimeInterval ++ [58, 32] ++ dt ++ [10],
        keyScale ++ [58, 32] ++ scale ++ [10],
        keyOffset ++ [58, 32] ++ offset ++ [10]], data) := by
  have e : write_header dt scale offset ++ data =
      ((keyTimeInterval ++ [58, 32]) ++ dt) ++ 10 ::
        (((keyScale ++ [58, 32]) ++ scale) ++ 10 ::
          (((keyOffset ++ [58, 32]) ++ offset) ++ 10 :: (10 :: data))) := by
    simp [write_header, List.append_assoc]
  rw [e]
  have r1 := readline_no_nl ((keyTimeInterval ++ [58, 32]) ++ dt)
    (((keyScale ++ [58, 32]) ++ scale) ++ 10 ::
      (((keyOffset ++ [58, 32]) ++ offset) ++ 10 :: (10 :: data)))
    (no_nl_line keyTimeInterval dt (by decide) hdt)
  have r2 := readline_no_nl ((keyScale ++ [58, 32]) ++ scale)
    (((keyOffset ++ [58, 32]) ++ offset) ++ 10 :: (10 :: data))
    (no_nl_line keyScale scale (by decide) hscale)
  have r3 := readline_no_nl ((keyOffset ++ [58, 32]) ++ offset) (10 :: data)
    (no_nl_line keyOffset offset (by decide) hoffset)
  have n1 : stripBytes (((keyTimeInterval ++ [58, 32]) ++ dt) ++ [10]) ≠ [] :=
    stripBytes_ne_nil _ 58 (by simp) rfl
  have n2 : stripBytes (((keyScale ++ [58, 32]) ++ scale) ++ [10]) ≠ [] :=
    stripBytes_ne_nil _ 58 (by simp) rfl
  have n3 : stripBytes (((keyOffset ++ [58, 32]) ++ offset) ++ [10]) ≠ [] :=
    stripBytes_ne_nil _ 58 (by simp) rfl
  rw [show m + 4 = (m + 3) + 1 from rfl]
  simp only [read_header_lines]
  rw [r1]
  dsimp only
  rw [if_neg n1, r2]
  dsimp only
  rw [if_neg n2, r3]
  dsimp only
  rw [if_neg n3]
  rw [show readline (10 :: data) = ([10], data) from rfl]
  dsimp only
  rw [if_pos (show stripBytes [10] = ([] : List Nat) from rfl)]

theorem decode_encode_int16 (x : Int) (h1 : -32768 ≤ x) (h2 : x < 32768) :
    decode_int16_le ((x % 65536).toNat % 256) ((x % 65536).toNat / 256) = x := by
  unfold decode_int16_le
  have h0 : (0:Int) ≤ x % 65536 := Int.emod_nonneg x (by norm_num)
  have h5 : x % 65536 < 65536 := Int.emod_lt_of_pos x (by norm_num)
  dsimp only
  split_ifs with hlt <;> omega

theorem decode_samples_encode (l : List Int)
    (h : ∀ x ∈ l, -32768 ≤ x ∧ x < 32768) :
    decode_samples ((l.map encode_int16_le).flatten) = l := by
  induction l with
  | nil => rfl
  | cons x l' ih =>
    have hx := h x (List.mem_cons_self x l')
    simp only [List.map_cons, List.flatten_cons, encode_int16_le,
      List.cons_append, List.nil_append]
    simp only [decode_samples]
    rw [decode_encode_int16 x hx.1 hx.2,
      ih (fun y hy => h y (List.mem_cons_of_mem x hy))]

theorem write_recording_eq (dt scale offset : List Nat) (chunks : List (List Int)) :
    write_recording dt scale offset chunks =
      write_header dt scale offset ++ (chunks.flatten.map encode_int16_le).flatten := by
  unfold write_recording
  generalize write_header dt scale offset = init
  induction chunks generalizing init with
  | nil => simp
  | cons c cs ih => simp [ih, List.append_assoc]

/-- C6: recording round trip — writing the plain-text header (three
`key: value` lines terminated by a blank line) followed by the delivered
chunks' samples as raw little-endian int16, then reading the file back with
`read_recorded_data`, reproduces the same header key/value pairs and the
same samples in the same order, bit-exact.  The header values range over
arbitrary whitespace-free byte strings (covering every decimal rendering of
time interval, scale and offset); the samples range over all int16 values. -/
theorem pico_C6 (dt scale offset : List Nat) (chunks : List (List Int))
    (hdt : ∀ b ∈ dt, isSpaceByte b = false)
    (hscale : ∀ b ∈ scale, isSpaceByte b = false)
    (hoffset : ∀ b ∈ offset, isSpaceByte b = false)
    (hsamples : ∀ x ∈ chunks.flatten, -32768 ≤ x ∧ x < 32768) :
    read_recorded_data (write_recording dt scale offset chunks) =
      ([(keyTimeInterval, dt), (keyScale, scale), (keyOffset, offset)],
       chunks.flatten) := by
  rw [write_recording_eq]
  unfold read_recorded_data
  obtain ⟨m, hm⟩ : ∃ m,
      (write_header dt scale offset ++
        (chunks.flatten.map encode_int16_le).flatten).length = m + 4 := by
    refine ⟨(write_header dt scale offset ++
      (chunks.flatten.map encode_int16_le).flatten).length - 4, ?_⟩
    have : 4 ≤ (write_header dt scale offset ++
        (chunks.flatten.map encode_int16_le).flatten).length := by
      simp [write_header, keyTimeInterval, keyScale, keyOffset]
    omega
  rw [hm, read_header_lines_write_header dt scale offset _ m hdt hscale hoffset]
  dsimp only
  rw [List.filterMap_cons, List.filterMap_cons, List.filterMap_cons, List.filterMap_nil]
  rw [parse_header_line_kv keyTimeInterval dt (by decide) (by decide) hdt]
  rw [parse_header_line_kv keyScale scale (by decide) (by decide) hscale]
  rw [parse_header_line_kv keyOffset offset (by decide) (by decide) hoffset]
  rw [decode_samples_encode chunks.flatten hsamples]

/-- Witness for C6: a concrete file with header values `"0.5"`, `"10"`,
`"-2"` and two chunks of int16 samples, including the extremes. -/
theorem pico_C6_witness :
    read_recorded_data (write_recording [48, 46, 53] [49, 48] [45, 50]
        [[1, -1, 300], [-32768, 32767]]) =
      ([(keyTimeInterval, [48, 46, 53]), (keyScale, [49, 48]),
        (keyOffset, [45, 50])],
       [1, -1, 300, -32768, 32767]) :=
  pico_C6 [48, 46, 53] [49, 48] [45, 50] [[1, -1, 300], [-32768, 32767]]
    (by decide) (by decide) (by decide) (by decide)

end Pico
